import Mathlib

/-!
Shallow embedding of the voice-agent session bridge: a WebSocket relay
between a browser voice client and upstream speech and language services.
The repository holds several near-duplicate variants of the bridge; each
namespace below embeds the variant found in one source file:

* ServerTs : src/src/server.ts       (Deepgram STT/TTS plus Mistral tool loop)
* ToolsTs  : src/src/tools.ts       (tool table, dispatch, result re-injection)
* GoogleTs : src/src/google.ts      (both gmailSearch variants in that file)
* Part000  : src/unnamed/part_000   (OpenAI realtime relay with a client queue)
* Part001  : src/unnamed/part_001   (OpenAI realtime relay with zod validation)
* Part002  : src/unnamed/part_002   (OpenAI realtime relay with tool execution)

JSON values are modelled by the inductive JVal; JavaScript objects are
association lists in insertion order.  The textual JSON parser, JSON.parse,
is kept as an explicit function parameter of type String -> Option JVal
(success or exception); everything downstream of parsing is embedded
concretely from the source.  Where a field of a sent JSON object is built
with JSON.stringify, the embedding carries the structured value and notes
that stringification happens on the wire.
-/

/-- A JSON value, as produced by JSON.parse. -/
inductive JVal where
  | str (s : String)
  | num (n : Int)
  | bool (b : Bool)
  | null
  | arr (elems : List JVal)
  | obj (fields : List (String × JVal))

/-- Lookup of a key in a JavaScript object, modelled as an association
list read from the front (keys of parsed JSON objects are unique). -/
def lookupAssoc {α : Type} : List (String × α) → String → Option α
  | [], _ => none
  | (k0, v) :: rest, k => if k0 = k then some v else lookupAssoc rest k

/-- JavaScript property assignment on an object: overwrite the value at an
existing key in place, otherwise append the key at the end. -/
def updAssoc {α : Type} : List (String × α) → String → α → List (String × α)
  | [], k, v => [(k, v)]
  | (k0, v0) :: rest, k, v =>
      if k0 = k then (k0, v) :: rest else (k0, v0) :: updAssoc rest k v

/-- JavaScript delete of a key from an object. -/
def removeAssoc {α : Type} : List (String × α) → String → List (String × α)
  | [], _ => []
  | (k0, v0) :: rest, k => if k0 = k then rest else (k0, v0) :: removeAssoc rest k

/-- JavaScript object spread: start from base and assign every field of
extra over it, later fields overriding earlier ones per key. -/
def spreadInto (base extra : List (String × JVal)) : List (String × JVal) :=
  extra.foldl (fun acc kv => updAssoc acc kv.1 kv.2) base

/-- Property access v.k in JavaScript: fields of objects, undefined
(none) for everything else. -/
def jGet (v : JVal) (k : String) : Option JVal :=
  match v with
  | JVal.obj fs => lookupAssoc fs k
  | _ => none

/-- JavaScript truthiness of a JSON value. -/
def jsTruthy : JVal → Bool
  | JVal.str s => s ≠ ""
  | JVal.num n => n ≠ 0
  | JVal.bool b => b
  | JVal.null => false
  | JVal.arr _ => true
  | JVal.obj _ => true

/-- The JavaScript expression x || d on a possibly-undefined value. -/
def jsOrElse (v : Option JVal) (dflt : JVal) : JVal :=
  match v with
  | some x => if jsTruthy x then x else dflt
  | none => dflt

/-- JavaScript String(x) coercion.  The array-join coercion is elided
(none of the verified claims exercises String on an array value). -/
def jsToString : JVal → String
  | JVal.str s => s
  | JVal.num n => toString n
  | JVal.bool true => "true"
  | JVal.bool false => "false"
  | JVal.null => "null"
  | JVal.arr _ => ""
  | JVal.obj _ => "[object Object]"

/-- The common pattern String(obj.k || dflt) over a JSON object. -/
def strFieldOr (v : JVal) (k : String) (dflt : String) : String :=
  jsToString (jsOrElse (jGet v k) (JVal.str dflt))

/-- Coercion of a possibly-undefined value to a JavaScript object key,
as in indexing pending[evt.call_id].  Matches the String() coercion,
with undefined becoming the key "undefined". -/
def jsKeyOf (v : Option JVal) : String :=
  match v with
  | none => "undefined"
  | some x => jsToString x

/-- The template-literal rendering of a possibly-undefined name, as in
the backquoted string Unknown tool followed by the interpolated name. -/
def jsTemplateName (n : Option String) : String :=
  match n with
  | some s => s
  | none => "undefined"

/-- The trim() of JavaScript strings, made executable over the character
list (the String.trim of the standard library does not reduce in the
kernel; this version agrees with it on the claims checked here). -/
def jsTrim (s : String) : String :=
  String.mk (((s.data.dropWhile Char.isWhitespace).reverse.dropWhile
    Char.isWhitespace).reverse)

/-- The field msg.type when it is a string; none otherwise, so that a
strict === comparison against a string literal comes out false. -/
def msgType (v : JVal) : Option String :=
  match v with
  | JVal.obj fs =>
      match lookupAssoc fs "type" with
      | some (JVal.str t) => some t
      | _ => none
  | _ => none

namespace ServerTs

/-! Embedding of src/src/server.ts: the Deepgram STT/TTS bridge with a
Mistral tool-calling loop.  The turn accumulator is the per-connection
state around lastPartial (here lastTranscript, renamed for the
verification environment), the finalize timer and the dialog memory. -/

/-- The per-connection turn-accumulator state of server.ts:
lastTranscript is state.lastPartial, timerArmed is whether
state.partialTimer is non-null, userTurns are the user-role messages
pushed by handleUserTurn, handoffs counts the handleUserTurn calls
(the hand-offs to generation). -/
structure TAState where
  lastTranscript : String
  timerArmed : Bool
  userTurns : List String
  handoffs : Nat
deriving DecidableEq

/-- schedulePartialFinalize (server.ts): clear any pending finalize timer
and arm a fresh one. -/
def scheduleFinalizeTimer (s : TAState) : TAState :=
  { s with timerArmed := true }

/-- finalizeNow (server.ts lines 189-203): clear the timer; read and trim
the buffered text; if empty, return; otherwise clear the buffer, emit the
final transcript and hand the text to handleUserTurn, which appends one
user turn and runs generation. -/
def finalizeNow (s : TAState) : TAState :=
  if jsTrim s.lastTranscript = "" then { s with timerArmed := false }
  else { s with timerArmed := false, lastTranscript := "",
                userTurns := s.userTurns ++ [jsTrim s.lastTranscript],
                handoffs := s.handoffs + 1 }

/-- The two asynchronous triggers of the accumulator: a transcript
fragment from the STT socket (with the is_final / speech_final /
UtteranceEnd flag folded into isFinal), and an expiry of the finalize
timer. -/
inductive TAEvent where
  | fragment (transcript : String) (isFinal : Bool)
  | timerFire
deriving DecidableEq

/-- One step of the accumulator, from the dg.on message handler: a
fragment with non-empty trimmed text updates the buffer and re-arms the
timer; a final flag runs finalizeNow; a timer expiry runs finalizeNow
only if the timer is still armed (a cleared timer never fires). -/
def taStep (s : TAState) : TAEvent → TAState
  | TAEvent.fragment t isFinal =>
      let s1 := if jsTrim t = "" then s
                else scheduleFinalizeTimer { s with lastTranscript := jsTrim t }
      if isFinal then finalizeNow s1 else s1
  | TAEvent.timerFire => if s.timerArmed then finalizeNow s else s

/-- The initial accumulator state of a fresh connection. -/
def taInit : TAState := ⟨"", false, [], 0⟩

/-- Running the accumulator over a sequence of events. -/
def taRun (s : TAState) (evs : List TAEvent) : TAState :=
  evs.foldl taStep s

/-- The control-message effects of the ws.on message text branch of
server.ts (lines 497-541): what is sent to the client and done locally.
There is no constructor for an error event because that handler never
produces one. -/
inductive CtlEffect where
  | sessionUpdatedEvt
  | stopTts
  | responseCreatedEvt
  | speakText (text : String)
deriving DecidableEq

/-- The text consumed by the response.create test branch:
msg.response.instructions if present and truthy, else Hello. -/
def respCreateText (msg : JVal) : String :=
  jsToString (jsOrElse ((jGet msg "response").bind (fun r => jGet r "instructions"))
    (JVal.str "Hello!"))

/-- ws.on message, text branch (server.ts lines 497-541).  JSON.parse
failure returns silently; a missing or non-string type returns silently;
recognised types act; unrecognised types fall through to the default and
return silently.  No error event is ever emitted and the connection is
left open. -/
def handleControlText (parsed : Option JVal) : List CtlEffect :=
  match parsed with
  | none => []
  | some msg =>
      match msgType msg with
      | none => []
      | some t =>
          if t = "session.update" then [CtlEffect.sessionUpdatedEvt]
          else if t = "interrupt" then [CtlEffect.stopTts]
          else if t = "response.create" then
            [CtlEffect.responseCreatedEvt, CtlEffect.speakText (respCreateText msg)]
          else []

/-- safeJson (server.ts lines 565-571): JSON.parse in a try block,
returning the empty object on an exception. -/
def safeJson (parse : String → Option JVal) (s : String) : JVal :=
  (parse s).getD (JVal.obj [])

/-- A tool call as found in a Mistral response: call.function?.name and
call.function?.arguments (the id field is unused by the loop). -/
structure MistralToolCall where
  name : Option String
  argumentsText : Option String

/-- call.function?.arguments || the two-character empty-object string. -/
def callArgumentsText (c : MistralToolCall) : String :=
  match c.argumentsText with
  | some s => if s = "" then "\x7b\x7d" else s
  | none => "\x7b\x7d"

/-- toNum applied to a JSON field (server.ts).  Number() coercion of
non-number JSON values is elided: no verified claim exercises it. -/
def toNumField (args : JVal) (k : String) (fallback : Int) : Int :=
  match jGet args k with
  | some (JVal.num n) => n
  | _ => fallback

/-- Converting the try/catch around a tool execution into the result
object: a thrown error becomes an object with ok false and the message. -/
def exceptToOutput (r : Except String JVal) : JVal :=
  match r with
  | Except.ok v => v
  | Except.error e => JVal.obj [("ok", JVal.bool false), ("error", JVal.str e)]

/-- Whether the loop recognises the tool name (the three strict
comparisons of the if/else chain). -/
def isKnownToolName (n : Option String) : Bool :=
  decide (n = some "gmail_search") || decide (n = some "gmail_read") ||
  decide (n = some "gmail_send")

/-- The if/else chain of callMistralWithTools (server.ts lines 420-451):
dispatch on toolName to the gmail implementations (external calls,
passed as parameters), else synthesise the unknown-tool result without
invoking anything; a thrown error is caught into an error object. -/
def dispatchTool (gs : String → Int → Except String JVal)
    (gr : String → Except String JVal)
    (gsend : String → String → String → Except String JVal)
    (toolName : Option String) (args : JVal) : JVal :=
  if toolName = some "gmail_search" then
    exceptToOutput (gs (strFieldOr args "query" "") (toNumField args "maxResults" 5))
  else if toolName = some "gmail_read" then
    exceptToOutput (gr (strFieldOr args "id" ""))
  else if toolName = some "gmail_send" then
    exceptToOutput (gsend (strFieldOr args "to" "") (strFieldOr args "subject" "")
      (strFieldOr args "body" ""))
  else JVal.obj [("ok", JVal.bool false),
                 ("error", JVal.str ("Unknown tool " ++ jsTemplateName toolName))]

/-- One tool-role message pushed back for the model: the name and the
result object (JSON.stringify is applied to the content on the wire). -/
structure ToolTurn where
  name : Option String
  content : JVal

/-- The for-of loop over first-pass tool calls: each call is dispatched
and pushes exactly one tool turn, in call order. -/
def runToolLoop (parse : String → Option JVal)
    (gs : String → Int → Except String JVal)
    (gr : String → Except String JVal)
    (gsend : String → String → String → Except String JVal)
    (calls : List MistralToolCall) : List ToolTurn :=
  calls.map (fun c =>
    ⟨c.name, dispatchTool gs gr gsend c.name (safeJson parse (callArgumentsText c))⟩)

/-- After the loop, a second chat completion is requested exactly when
the first pass returned tool calls. -/
def secondPassIssued (calls : List MistralToolCall) : Bool :=
  !calls.isEmpty

/-- The socket-level per-connection state relevant to teardown in
server.ts: the closed flag, the two Deepgram sockets and the two
timers. -/
structure ConnState where
  closed : Bool
  sttOpen : Bool
  ttsOpen : Bool
  finalizeTimerArmed : Bool
  pingTimerArmed : Bool
deriving DecidableEq

/-- The ws.on close handler (server.ts lines 544-551): mark closed,
close both Deepgram sockets and clear both timers. -/
def wsOnClose (_ : ConnState) : ConnState :=
  { closed := true, sttOpen := false, ttsOpen := false,
    finalizeTimerArmed := false, pingTimerArmed := false }

end ServerTs

namespace ToolsTs

/-! Embedding of src/src/tools.ts. -/

/-- The nudge instruction sent with the resume request. -/
def resumeInstructions : String :=
  "Use the tool result you just received to answer concisely."

/-- Messages sent to the upstream realtime socket by
sendToolResultBackToModel. -/
inductive UpSend where
  | conversationItemCreate (callId : String) (output : JVal)
  | responseCreateInstructions (instructions : String)

/-- sendToolResultBackToModel (tools.ts lines 48-74): first attach the
function_call_output item for the call (output is JSON.stringify of the
result object on the wire), then ask the model to respond using it. -/
def sendToolResultBackToModel (callId : String) (resultObj : JVal) : List UpSend :=
  [UpSend.conversationItemCreate callId resultObj,
   UpSend.responseCreateInstructions resumeInstructions]

/-- runToolByName (tools.ts lines 33-45): dispatch by name, with gentle
argument validation for gmail_search; any other name throws an
Unknown tool error.  The gmail_search implementation is an external
capability, passed as a parameter. -/
def runToolByName (gmailSearchExec : String → Int → Except String JVal)
    (name : String) (args : JVal) : Except String JVal :=
  if name = "gmail_search" then
    gmailSearchExec
      (match jGet args "query" with
       | some (JVal.str s) => s
       | _ => "is:unread")
      (match jGet args "max" with
       | some (JVal.num n) => n
       | _ => 5)
  else Except.error ("Unknown tool: " ++ name)

end ToolsTs

namespace GoogleTs

/-! Embedding of src/src/google.ts: the two gmailSearch variants in that
file, reduced to the computation of the effective maxResults value that
is passed to the Gmail API. -/

/-- The JavaScript default x || 5 on the integer field (0 is falsy). -/
def jsOrDefaultNum (v : Option Int) (dflt : Int) : Int :=
  match v with
  | some n => if n = 0 then dflt else n
  | none => dflt

/-- First variant (google.ts line 72):
Math.min(Math.max(params.maxResults || 5, 1), 10). -/
def effectiveMaxResults (maxResults : Option Int) : Int :=
  min (max (jsOrDefaultNum maxResults 5) 1) 10

/-- Second variant (google.ts line 210): the default parameter max = 5
applies when the argument is undefined, then Math.max(1, Math.min(max, 10)). -/
def effectiveMaxSecond (maxVal : Option Int) : Int :=
  max 1 (min (maxVal.getD 5) 10)

/-- The maximum advertised for maxResults in the gmail_search tool
schema handed to the model (server.ts line 356). -/
def advertisedSchemaMaximum : Int := 20

end GoogleTs

namespace Part000

/-! Embedding of src/unnamed/part_000: the OpenAI realtime relay that
queues client traffic until the upstream socket opens, and intercepts
the streamed function-call events on the upstream side. -/

/-- An item sent (or queued to be sent) on the upstream socket: raw
binary audio, or a JSON message (JSON.stringify applied on the wire). -/
inductive UpItem where
  | audioBin (data : String)
  | json (v : JVal)

/-- The connection-level relay state: the openaiReady flag, the
clientQueue buffer, and the trace of items handed to openai.send in
order. -/
structure NetState where
  openaiReady : Bool
  clientQueue : List UpItem
  sentUpstream : List UpItem

/-- sendToOpenAI (part_000 lines 144-148): send when the upstream is
ready, otherwise push onto the client queue. -/
def sendToOpenAI (s : NetState) (item : UpItem) : NetState :=
  if s.openaiReady then { s with sentUpstream := s.sentUpstream ++ [item] }
  else { s with clientQueue := s.clientQueue ++ [item] }

/-- An inbound client frame: binary audio, or a text frame together
with the outcome of JSON.parse on it. -/
inductive ClientFrame where
  | binary (data : String)
  | text (parsed : Option JVal)

/-- The response.cancel message produced for a client interrupt. -/
def responseCancelMsg : JVal := JVal.obj [("type", JVal.str "response.cancel")]

/-- The session.update configuration sent on upstream open (part_000
lines 160-180).  Instructions, turn detection, temperature, tools and
tool choice are elided: their contents do not affect any verified
ordering property, only the position of this message matters. -/
def sessionConfigMsg : JVal :=
  JVal.obj [("type", JVal.str "session.update"),
            ("session", JVal.obj
              [("voice", JVal.str "alloy"),
               ("input_audio_format", JVal.str "pcm16"),
               ("output_audio_format", JVal.str "pcm16")])]

/-- client.on message (part_000 lines 188-212): binary frames are sent
or queued directly; text frames that fail JSON.parse are dropped;
an interrupt maps to response.cancel; every other parsed message is
passed through via sendToOpenAI. -/
def onClientMessage (s : NetState) (f : ClientFrame) : NetState :=
  match f with
  | ClientFrame.binary b =>
      if s.openaiReady then { s with sentUpstream := s.sentUpstream ++ [UpItem.audioBin b] }
      else { s with clientQueue := s.clientQueue ++ [UpItem.audioBin b] }
  | ClientFrame.text none => s
  | ClientFrame.text (some m) =>
      if msgType m = some "interrupt" then sendToOpenAI s (UpItem.json responseCancelMsg)
      else sendToOpenAI s (UpItem.json m)

/-- openai.on open (part_000 lines 156-185): mark ready, send the
session configuration, then flush the queue in original arrival order
and clear it. -/
def onOpen (s : NetState) : NetState :=
  let s1 := { s with openaiReady := true }
  let s2 := sendToOpenAI s1 (UpItem.json sessionConfigMsg)
  { s2 with sentUpstream := s2.sentUpstream ++ s2.clientQueue, clientQueue := [] }

/-- The upstream item a client frame turns into, if any: what the
handler would send for it.  A frame that fails JSON.parse yields
nothing. -/
def frameToUpstream : ClientFrame → Option UpItem
  | ClientFrame.binary b => some (UpItem.audioBin b)
  | ClientFrame.text none => none
  | ClientFrame.text (some m) =>
      some (UpItem.json (if msgType m = some "interrupt" then responseCancelMsg else m))

/-- A fresh connection: upstream not yet open, empty queue, nothing
sent. -/
def netInit : NetState := ⟨false, [], []⟩

/-- A pending function call (part_000 type PendingCall): the announced
name (possibly absent) and the accumulated argument text. -/
structure P0Pending where
  name : Option String
  args : String

/-- What one parsed upstream event produces: the updated pending map,
the events forwarded to the client, and the JSON messages handed to
sendToOpenAI. -/
structure P0UpOut where
  pending : List (String × P0Pending)
  toClient : List JVal
  toOpenAI : List JVal

/-- The field evt.name recorded on a call announcement (a non-string
name field is not produced by the upstream protocol and is treated as
absent). -/
def p0NameOf (evt : JVal) : Option String :=
  match jGet evt "name" with
  | some (JVal.str s) => some s
  | _ => none

/-- The expression evt.delta || the empty string. -/
def p0DeltaStr (evt : JVal) : String :=
  match jGet evt "delta" with
  | some (JVal.str s) => s
  | _ => ""

/-- The argument-parsing step of the done branch (part_000 lines
245-250): p?.args ? JSON.parse(p.args) : empty object, with the catch
also yielding the empty object. -/
def p0ArgsOf (parse : String → Option JVal) (entry : Option P0Pending) : JVal :=
  match entry with
  | some p => if p.args = "" then JVal.obj [] else (parse p.args).getD (JVal.obj [])
  | none => JVal.obj []

/-- The tool dispatch of the done branch (part_000 lines 252-263):
gmail_search and gmail_read are external calls passed as parameters; a
thrown error is caught into an error object; any other (or absent) name
yields the not-implemented object without invoking anything. -/
def p0Dispatch (gs : String → Option JVal → Except String JVal)
    (gr : String → Except String JVal)
    (name : Option String) (args : JVal) : JVal :=
  match name with
  | some "gmail_search" =>
      ServerTs.exceptToOutput (gs (strFieldOr args "query" "") (jGet args "maxResults"))
  | some "gmail_read" =>
      ServerTs.exceptToOutput (gr (strFieldOr args "id" ""))
  | _ => JVal.obj [("ok", JVal.bool false),
                   ("error", JVal.str ("Tool " ++ jsTemplateName name ++ " not implemented."))]

/-- The conversation.item.create message carrying a function call
output (part_000 lines 266-273).  The output field is
JSON.stringify(output) on the wire. -/
def p0ItemCreate (callId : String) (output : JVal) : JVal :=
  JVal.obj [("type", JVal.str "conversation.item.create"),
            ("item", JVal.obj
              [("type", JVal.str "function_call_output"),
               ("call_id", JVal.str callId),
               ("output", output)])]

/-- The resume request issued after a tool result (part_000 lines
276-283). -/
def p0ResumeMsg : JVal :=
  JVal.obj [("type", JVal.str "response.create"),
            ("response", JVal.obj
              [("instructions", JVal.str "Use the tool output to answer the user. If you looked at emails, summarise clearly and ask if they want to read any."),
               ("modalities", JVal.arr [JVal.str "audio", JVal.str "text"])])]

/-- Whether an event is one of the three tool-call lifecycle kinds that
part_000 intercepts. -/
def p0IsIntercepted (evt : JVal) : Bool :=
  decide (msgType evt = some "response.function_call.created") ||
  decide (msgType evt = some "response.function_call_arguments.delta") ||
  decide (msgType evt = some "response.function_call_arguments.done")

/-- openai.on message, parsed branch (part_000 lines 227-289): the
if-chain over evt.type.  A call announcement records the name and
returns; an arguments delta appends and returns; an arguments done
parses the arguments, dispatches the tool, sends the
function_call_output and the resume request, and returns; every other
event is forwarded to the client. -/
def p0Handle (parse : String → Option JVal)
    (gs : String → Option JVal → Except String JVal)
    (gr : String → Except String JVal)
    (pending : List (String × P0Pending)) (evt : JVal) : P0UpOut :=
  if msgType evt = some "response.function_call.created" then
    ⟨updAssoc pending (jsKeyOf (jGet evt "call_id")) ⟨p0NameOf evt, ""⟩, [], []⟩
  else if msgType evt = some "response.function_call_arguments.delta" then
    let cid := jsKeyOf (jGet evt "call_id")
    let p := (lookupAssoc pending cid).getD ⟨none, ""⟩
    ⟨updAssoc pending cid { p with args := p.args ++ p0DeltaStr evt }, [], []⟩
  else if msgType evt = some "response.function_call_arguments.done" then
    let cid := jsKeyOf (jGet evt "call_id")
    let entry := lookupAssoc pending cid
    let args := p0ArgsOf parse entry
    let output := p0Dispatch gs gr (entry.bind (fun p => p.name)) args
    ⟨pending, [], [p0ItemCreate cid output, p0ResumeMsg]⟩
  else ⟨pending, [evt], []⟩

end Part000

namespace Part001

/-! Embedding of src/unnamed/part_001: the relay that validates client
control messages with the zod ClientMessageSchema before mapping them to
upstream operations, and funnels all teardown through the guarded
closeBoth. -/

/-- A control message accepted by ClientMessageSchema (types.ts). -/
inductive ClientMsg where
  | sessionInit (sessionId : Option String) (instructions : Option String)
  | interrupt
  | commit
  | responseCreate (response : Option (List (String × JVal)))
  | sessionUpdate (session : List (String × JVal))

/-- An optional string field of a zod object shape: absent is accepted
as none, a string is accepted, anything else fails validation. -/
def optStrField (fs : List (String × JVal)) (k : String) : Option (Option String) :=
  match lookupAssoc fs k with
  | none => some none
  | some (JVal.str s) => some (some s)
  | some _ => none

/-- An optional record field (z.record(z.any()).optional()): absent is
accepted as none, an object is accepted, anything else fails. -/
def optRecordField (fs : List (String × JVal)) (k : String) :
    Option (Option (List (String × JVal))) :=
  match lookupAssoc fs k with
  | none => some none
  | some (JVal.obj rs) => some (some rs)
  | some _ => none

/-- A required record field (z.record(z.any())): an object is accepted,
anything else (including absence) fails. -/
def reqRecordField (fs : List (String × JVal)) (k : String) :
    Option (List (String × JVal)) :=
  match lookupAssoc fs k with
  | some (JVal.obj rs) => some rs
  | _ => none

/-- ClientMessageSchema.safeParse: the union of the five recognised
shapes, discriminated on the type literal; a non-object, a missing or
unrecognised type, or a field of the wrong type fails. -/
def clientMessageSafeParse (v : JVal) : Option ClientMsg :=
  match v with
  | JVal.obj fs =>
      match lookupAssoc fs "type" with
      | some (JVal.str "session.init") =>
          match optStrField fs "sessionId", optStrField fs "instructions" with
          | some sid, some instr => some (ClientMsg.sessionInit sid instr)
          | _, _ => none
      | some (JVal.str "interrupt") => some ClientMsg.interrupt
      | some (JVal.str "commit") => some ClientMsg.commit
      | some (JVal.str "response.create") =>
          match optRecordField fs "response" with
          | some r => some (ClientMsg.responseCreate r)
          | none => none
      | some (JVal.str "session.update") =>
          match reqRecordField fs "session" with
          | some s => some (ClientMsg.sessionUpdate s)
          | none => none
      | _ => none
  | _ => none

/-- An event emitted to the browser client by the text-frame handler
(only error events arise there). -/
inductive ClientEvt where
  | errorEvent (message : String)

/-- A message sent to the upstream realtime socket by the text-frame
handler. -/
inductive UpMsg where
  | sessionUpdateInstructions (instructions : String)
  | responseCancel
  | inputAudioBufferCommit
  | responseCreateResp (response : List (String × JVal))
  | sessionUpdateSession (session : List (String × JVal))

/-- What one text frame produces: events to the client, messages to the
upstream, and whether the handler closes the connection (it never
does). -/
structure HandlerOutput where
  toClient : List ClientEvt
  toUpstream : List UpMsg
  closesConnection : Bool

/-- The deterministic defaults of the response.create mapping
(part_001 lines 161-169): modalities, voice and output audio format,
in object insertion order. -/
def responseDefaults (voice outputAudioFormat : String) : List (String × JVal) :=
  [("modalities", JVal.arr [JVal.str "audio", JVal.str "text"]),
   ("voice", JVal.str voice),
   ("output_audio_format", JVal.str outputAudioFormat)]

/-- The response object sent upstream for response.create: the defaults
spread-merged with the caller-supplied response (msg.response ?? the
empty object), caller keys overriding per key. -/
def mergedResponse (voice fmt : String)
    (response : Option (List (String × JVal))) : List (String × JVal) :=
  spreadInto (responseDefaults voice fmt) (response.getD [])

/-- client.on message, text branch (part_001 lines 112-184): JSON.parse
failure emits one Invalid JSON error event; schema failure emits one
Invalid message shape error event; in both cases nothing is forwarded
upstream and the connection stays open.  A valid message is mapped by
the switch to its upstream operation. -/
def handleClientText (voice fmt : String) (parsed : Option JVal) : HandlerOutput :=
  match parsed with
  | none => ⟨[ClientEvt.errorEvent "Invalid JSON from client"], [], false⟩
  | some v =>
      match clientMessageSafeParse v with
      | none => ⟨[ClientEvt.errorEvent "Invalid message shape"], [], false⟩
      | some (ClientMsg.sessionInit _ instructions) =>
          ⟨[], (match instructions with
                | some i => if i = "" then [] else [UpMsg.sessionUpdateInstructions i]
                | none => []), false⟩
      | some ClientMsg.interrupt => ⟨[], [UpMsg.responseCancel], false⟩
      | some ClientMsg.commit => ⟨[], [UpMsg.inputAudioBufferCommit], false⟩
      | some (ClientMsg.responseCreate r) =>
          ⟨[], [UpMsg.responseCreateResp (mergedResponse voice fmt r)], false⟩
      | some (ClientMsg.sessionUpdate s) =>
          ⟨[], [UpMsg.sessionUpdateSession s], false⟩

/-- Concatenation of handler outputs for consecutive frames. -/
def outApp (a b : HandlerOutput) : HandlerOutput :=
  ⟨a.toClient ++ b.toClient, a.toUpstream ++ b.toUpstream,
   a.closesConnection || b.closesConnection⟩

/-- Processing a sequence of text frames one after another: each frame
is handled independently of the previous ones. -/
def runTextFrames (voice fmt : String) (frames : List (Option JVal)) : HandlerOutput :=
  frames.foldl (fun acc f => outApp acc (handleClientText voice fmt f)) ⟨[], [], false⟩

/-- A teardown side effect observable at the sockets and timers. -/
inductive TeardownAct where
  | closeUpstream (code : Nat) (reason : String)
  | closeClient (code : Nat) (reason : String)
  | clearPing
  | errorToClient
deriving DecidableEq

/-- The per-session teardown state: the closed flag guarding closeBoth,
and the trace of emitted teardown effects. -/
structure P1Session where
  closed : Bool
  acts : List TeardownAct
deriving DecidableEq

/-- closeBoth (part_001 lines 56-65): if already closed, return at
once; otherwise set closed and close the upstream and the client
sockets. -/
def closeBoth (s : P1Session) (code : Nat) (reason : String) : P1Session :=
  if s.closed then s
  else { closed := true,
         acts := s.acts ++ [TeardownAct.closeUpstream code reason,
                            TeardownAct.closeClient code reason] }

/-- The four lifecycle events whose handlers funnel into closeBoth
(part_001 lines 72-82). -/
inductive LifecycleEvt where
  | clientClose
  | clientError
  | upstreamClose
  | upstreamError
deriving DecidableEq

/-- The registered lifecycle handlers: client close clears the ping
interval then calls closeBoth with the default arguments; client error
calls closeBoth 1011; upstream close calls closeBoth; upstream error
best-effort notifies the client then calls closeBoth 1011. -/
def onLifecycle (s : P1Session) : LifecycleEvt → P1Session
  | LifecycleEvt.clientClose =>
      closeBoth { s with acts := s.acts ++ [TeardownAct.clearPing] } 1000 "closing"
  | LifecycleEvt.clientError => closeBoth s 1011 "client error"
  | LifecycleEvt.upstreamClose => closeBoth s 1000 "closing"
  | LifecycleEvt.upstreamError =>
      closeBoth { s with acts := s.acts ++ [TeardownAct.errorToClient] } 1011 "upstream error"

/-- Running a session from the fresh state through a sequence of
lifecycle events. -/
def runLifecycle (evs : List LifecycleEvt) : P1Session :=
  evs.foldl onLifecycle ⟨false, []⟩

/-- Number of upstream-socket close effects in a trace. -/
def countCloseUpstream (acts : List TeardownAct) : Nat :=
  acts.countP fun a => match a with
    | TeardownAct.closeUpstream _ _ => true
    | _ => false

/-- Number of client-socket close effects in a trace. -/
def countCloseClient (acts : List TeardownAct) : Nat :=
  acts.countP fun a => match a with
    | TeardownAct.closeClient _ _ => true
    | _ => false

/-- Number of ping-interval releases in a trace. -/
def countClearPing (acts : List TeardownAct) : Nat :=
  acts.countP fun a => match a with
    | TeardownAct.clearPing => true
    | _ => false

/-- Number of client close events in a lifecycle sequence (the ws
library fires close at most once per socket). -/
def countClientClose (evs : List LifecycleEvt) : Nat :=
  evs.countP fun e => match e with
    | LifecycleEvt.clientClose => true
    | _ => false

end Part001

namespace Part002

/-! Embedding of src/unnamed/part_002: the relay that executes tools via
tools.ts and always forwards the raw upstream frame to the client. -/

/-- A pending tool call (part_002 pendingToolCalls entry): the recorded
item name and the accumulated argument text. -/
structure PendingP2 where
  name : Option String
  argsText : String

/-- What one upstream frame produces: the updated pending map, the raw
frames forwarded to the client, and the messages sent back to the
upstream socket. -/
structure P2UpOut where
  pending : List (String × PendingP2)
  toClient : List String
  toOpenAI : List ToolsTs.UpSend

/-- The JavaScript || chain over candidate id fields: the first field
that is a non-empty string (other truthy value kinds do not occur in
the realtime protocol ids). -/
def firstTruthyStr : List (Option JVal) → Option String
  | [] => none
  | x :: rest =>
      match x with
      | some (JVal.str s) => if s = "" then firstTruthyStr rest else some s
      | _ => firstTruthyStr rest

/-- msg.item?.call_id || msg.item?.id (the added branch). -/
def p2CallIdOfAdded (msg : JVal) : Option String :=
  firstTruthyStr [(jGet msg "item").bind (fun i => jGet i "call_id"),
                  (jGet msg "item").bind (fun i => jGet i "id")]

/-- msg.call_id || msg.item_id || msg.id (the delta branch). -/
def p2CallIdOfDelta (msg : JVal) : Option String :=
  firstTruthyStr [jGet msg "call_id", jGet msg "item_id", jGet msg "id"]

/-- msg.call_id || msg.item?.call_id || msg.item_id || msg.id (the done
branch). -/
def p2CallIdOfDone (msg : JVal) : Option String :=
  firstTruthyStr [jGet msg "call_id",
                  (jGet msg "item").bind (fun i => jGet i "call_id"),
                  jGet msg "item_id", jGet msg "id"]

/-- msg.delta || msg.arguments_delta || the empty string, then String(). -/
def p2DeltaText (msg : JVal) : String :=
  match firstTruthyStr [jGet msg "delta", jGet msg "arguments_delta"] with
  | some s => s
  | none => ""

/-- Whether msg.item?.type is the function_call literal. -/
def itemTypeIsFunctionCall (msg : JVal) : Bool :=
  match (jGet msg "item").bind (fun i => jGet i "type") with
  | some (JVal.str s) => s = "function_call"
  | _ => false

/-- The done condition (part_002 lines 89-92): an arguments done event,
or an output item done whose item is a function call. -/
def p2IsDone (msg : JVal) : Bool :=
  decide (msgType msg = some "response.function_call.arguments.done") ||
  (decide (msgType msg = some "response.output_item.done") && itemTypeIsFunctionCall msg)

/-- The reply sent for a completed call (part_002 lines 105-117): run
the tool by name; on success send the result back, on a thrown error
send an error payload back — in both cases through
sendToolResultBackToModel, so exactly one output injection followed by
exactly one resume request. -/
def completionSends (gs : String → Int → Except String JVal)
    (callId : String) (name : String) (args : JVal) : List ToolsTs.UpSend :=
  match ToolsTs.runToolByName gs name args with
  | Except.ok result => ToolsTs.sendToolResultBackToModel callId result
  | Except.error e =>
      ToolsTs.sendToolResultBackToModel callId
        (JVal.obj [("error", JVal.bool true), ("message", JVal.str e)])

/-- The interception steps applied to one parsed upstream event
(part_002 lines 67-119): record announced function calls, accumulate
argument deltas, and on completion execute the tool, reply, and delete
the pending entry.  Returns the updated pending map and the messages
sent back upstream. -/
def p2InterceptStep (parse : String → Option JVal)
    (gs : String → Int → Except String JVal)
    (pending : List (String × PendingP2)) (msg : JVal) :
    List (String × PendingP2) × List ToolsTs.UpSend :=
  let pending1 :=
    if msgType msg = some "response.output_item.added" ∧ itemTypeIsFunctionCall msg = true then
      match p2CallIdOfAdded msg with
      | some cid =>
          updAssoc pending cid
            ⟨(jGet msg "item").bind (fun i =>
                match jGet i "name" with
                | some (JVal.str n) => some n
                | _ => none), ""⟩
      | none => pending
    else pending
  let pending2 :=
    if msgType msg = some "response.function_call.arguments.delta" then
      match p2CallIdOfDelta msg with
      | some cid =>
          match lookupAssoc pending1 cid with
          | some entry =>
              updAssoc pending1 cid { entry with argsText := entry.argsText ++ p2DeltaText msg }
          | none => pending1
      | none => pending1
    else pending1
  if p2IsDone msg then
    match p2CallIdOfDone msg with
    | some cid =>
        match lookupAssoc pending2 cid with
        | some entry =>
            match entry.name with
            | some nm =>
                if nm = "" then (pending2, [])
                else
                  let parsedArgs := if entry.argsText = "" then JVal.obj []
                                    else (parse entry.argsText).getD (JVal.obj [])
                  (removeAssoc pending2 cid, completionSends gs cid nm parsedArgs)
            | none => (pending2, [])
        | none => (pending2, [])
    | none => (pending2, [])
  else (pending2, [])

/-- openaiWS.on message (part_002 lines 62-127): if the raw frame does
not parse as JSON it is forwarded to the client as-is; if it parses,
the interception steps run and the raw frame is still always forwarded
to the client afterwards — no event is withheld. -/
def p2OnUpstreamMessage (parse : String → Option JVal)
    (gs : String → Int → Except String JVal)
    (pending : List (String × PendingP2)) (raw : String) : P2UpOut :=
  match parse raw with
  | none => ⟨pending, [raw], []⟩
  | some msg =>
      let r := p2InterceptStep parse gs pending msg
      ⟨r.1, [raw], r.2⟩

/-- The relay state of the client-to-upstream direction in part_002:
only a readiness flag and the trace of what reached the upstream — this
variant has no queue. -/
structure P2Net where
  ready : Bool
  sentUpstream : List String

/-- clientWS.on message (part_002 lines 54-59): tunnel the frame
through when the upstream socket is open, otherwise log a warning —
the message is dropped, not queued. -/
def p2OnClientMessage (s : P2Net) (data : String) : P2Net :=
  if s.ready then { s with sentUpstream := s.sentUpstream ++ [data] }
  else s

/-- The serialized session.update configuration sent when the upstream
opens (part_002 lines 130-158); its contents are elided to a marker
string since only its position matters here. -/
def p2SessionConfigRaw : String := "session.update-config"

/-- openaiWS.on open (part_002 lines 130-158): configure the session
and tell the browser the bridge is ready.  Nothing queued earlier is
flushed, because nothing is ever queued. -/
def p2OnOpen (s : P2Net) : P2Net :=
  { ready := true, sentUpstream := s.sentUpstream ++ [p2SessionConfigRaw] }

/-- A fresh part_002 connection. -/
def p2NetInit : P2Net := ⟨false, []⟩

end Part002

/-- Number of function_call_output injections in a list of upstream
sends. -/
def countItemCreates (l : List ToolsTs.UpSend) : Nat :=
  l.countP fun m => match m with
    | ToolsTs.UpSend.conversationItemCreate _ _ => true
    | _ => false

/-- Number of resume-generation requests in a list of upstream sends. -/
def countResumeCreates (l : List ToolsTs.UpSend) : Nat :=
  l.countP fun m => match m with
    | ToolsTs.UpSend.responseCreateInstructions _ => true
    | _ => false

/-! Helper lemmas (shared; none of these is a claim theorem). -/

theorem jsTrim_empty : jsTrim "" = "" := rfl

theorem finalizeNow_timerArmed (s : ServerTs.TAState) :
    (ServerTs.finalizeNow s).timerArmed = false := by
  by_cases h : jsTrim s.lastTranscript = "" <;> simp [ServerTs.finalizeNow, h]

theorem finalizeNow_trim (s : ServerTs.TAState) :
    jsTrim (ServerTs.finalizeNow s).lastTranscript = "" := by
  by_cases h : jsTrim s.lastTranscript = "" <;>
    simp [ServerTs.finalizeNow, h, jsTrim_empty]

theorem finalizeNow_handoffs_eq (x : ServerTs.TAState)
    (hx : jsTrim x.lastTranscript = "") :
    (ServerTs.finalizeNow x).handoffs = x.handoffs := by
  simp [ServerTs.finalizeNow, hx]

theorem taStep_timerFire_armed (s : ServerTs.TAState) (h : s.timerArmed = true) :
    ServerTs.taStep s ServerTs.TAEvent.timerFire = ServerTs.finalizeNow s := by
  simp [ServerTs.taStep, h]

theorem taStep_timerFire_not_armed (s : ServerTs.TAState) (h : s.timerArmed = false) :
    ServerTs.taStep s ServerTs.TAEvent.timerFire = s := by
  simp [ServerTs.taStep, h]

theorem taStep_fragment_true_trim (s : ServerTs.TAState) (t : String) :
    jsTrim (ServerTs.taStep s (ServerTs.TAEvent.fragment t true)).lastTranscript = "" := by
  by_cases ht : jsTrim t = "" <;>
    simp [ServerTs.taStep, ht, ServerTs.scheduleFinalizeTimer, finalizeNow_trim]

theorem taStep_fragment_true_armed (s : ServerTs.TAState) (t : String) :
    (ServerTs.taStep s (ServerTs.TAEvent.fragment t true)).timerArmed = false := by
  by_cases ht : jsTrim t = "" <;>
    simp [ServerTs.taStep, ht, ServerTs.scheduleFinalizeTimer, finalizeNow_timerArmed]

theorem taStep_inv (s : ServerTs.TAState) (e : ServerTs.TAEvent)
    (h : jsTrim s.lastTranscript ≠ "" → s.timerArmed = true) :
    jsTrim (ServerTs.taStep s e).lastTranscript ≠ "" →
      (ServerTs.taStep s e).timerArmed = true := by
  cases e with
  | fragment t fin =>
      cases fin with
      | false =>
          by_cases ht : jsTrim t = ""
          · simpa [ServerTs.taStep, ht] using h
          · intro _
            simp [ServerTs.taStep, ht, ServerTs.scheduleFinalizeTimer]
      | true =>
          intro hne
          exact absurd (taStep_fragment_true_trim s t) hne
  | timerFire =>
      by_cases harm : s.timerArmed = true
      · rw [taStep_timerFire_armed s harm]
        intro hne
        exact absurd (finalizeNow_trim s) hne
      · rw [taStep_timerFire_not_armed s (by simpa using harm)]
        exact h

theorem taRun_inv (evs : List ServerTs.TAEvent) (s : ServerTs.TAState)
    (h : jsTrim s.lastTranscript ≠ "" → s.timerArmed = true) :
    jsTrim (ServerTs.taRun s evs).lastTranscript ≠ "" →
      (ServerTs.taRun s evs).timerArmed = true := by
  induction evs generalizing s with
  | nil => exact h
  | cons e rest ih => exact ih (ServerTs.taStep s e) (taStep_inv s e h)

theorem finalizeNow_len (x : ServerTs.TAState)
    (hx : x.userTurns.length = x.handoffs) :
    (ServerTs.finalizeNow x).userTurns.length = (ServerTs.finalizeNow x).handoffs := by
  by_cases hb : jsTrim x.lastTranscript = "" <;> simp [ServerTs.finalizeNow, hb, hx]

theorem taStep_len (s : ServerTs.TAState) (e : ServerTs.TAEvent)
    (h : s.userTurns.length = s.handoffs) :
    (ServerTs.taStep s e).userTurns.length = (ServerTs.taStep s e).handoffs := by
  cases e with
  | fragment t fin =>
      cases fin with
      | false =>
          by_cases ht : jsTrim t = ""
          · simpa [ServerTs.taStep, ht] using h
          · simpa [ServerTs.taStep, ht, ServerTs.scheduleFinalizeTimer] using h
      | true =>
          by_cases ht : jsTrim t = ""
          · have heq : ServerTs.taStep s (ServerTs.TAEvent.fragment t true)
                = ServerTs.finalizeNow s := by
              simp [ServerTs.taStep, ht]
            rw [heq]; exact finalizeNow_len s h
          · have heq : ServerTs.taStep s (ServerTs.TAEvent.fragment t true)
                = ServerTs.finalizeNow { s with lastTranscript := jsTrim t, timerArmed := true } := by
              simp [ServerTs.taStep, ht, ServerTs.scheduleFinalizeTimer]
            rw [heq]; exact finalizeNow_len _ h
  | timerFire =>
      by_cases harm : s.timerArmed = true
      · rw [taStep_timerFire_armed s harm]; exact finalizeNow_len s h
      · rw [taStep_timerFire_not_armed s (by simpa using harm)]; exact h

theorem taRun_len (evs : List ServerTs.TAEvent) (s : ServerTs.TAState)
    (h : s.userTurns.length = s.handoffs) :
    (ServerTs.taRun s evs).userTurns.length = (ServerTs.taRun s evs).handoffs := by
  induction evs generalizing s with
  | nil => exact h
  | cons e rest ih => exact ih (ServerTs.taStep s e) (taStep_len s e h)

theorem lookupAssoc_updAssoc {α : Type} (o : List (String × α)) (k0 k : String) (v : α) :
    lookupAssoc (updAssoc o k0 v) k = if k0 = k then some v else lookupAssoc o k := by
  induction o with
  | nil => simp [updAssoc, lookupAssoc]
  | cons hd tl ih =>
      obtain ⟨kh, vh⟩ := hd
      by_cases h1 : kh = k0
      · have hupd : updAssoc ((kh, vh) :: tl) k0 v = (kh, v) :: tl := by
          simp [updAssoc, h1]
        rw [hupd]
        by_cases h2 : kh = k
        · have hk : k0 = k := h1.symm.trans h2
          simp [lookupAssoc, h2, hk]
        · have hk : ¬ k0 = k := fun e => h2 (h1.trans e)
          simp [lookupAssoc, h2, hk]
      · have hupd : updAssoc ((kh, vh) :: tl) k0 v = (kh, vh) :: updAssoc tl k0 v := by
          simp [updAssoc, h1]
        rw [hupd]
        by_cases h2 : kh = k
        · have hk : ¬ k0 = k := fun e => h1 (h2.trans e.symm)
          simp [lookupAssoc, h2, hk]
        · simp [lookupAssoc, h2, ih]

theorem lookupAssoc_not_mem {α : Type} (o : List (String × α)) (k : String)
    (h : k ∉ o.map Prod.fst) : lookupAssoc o k = none := by
  induction o with
  | nil => rfl
  | cons hd tl ih =>
      obtain ⟨kh, vh⟩ := hd
      simp only [List.map_cons, List.mem_cons] at h
      push_neg at h
      have hne : ¬ kh = k := fun e => h.1 e.symm
      simp [lookupAssoc, hne, ih h.2]

theorem lookupAssoc_spreadInto (extra : List (String × JVal)) :
    ∀ (base : List (String × JVal)) (k : String),
      (extra.map Prod.fst).Nodup →
      lookupAssoc (spreadInto base extra) k =
        (match lookupAssoc extra k with
         | some v => some v
         | none => lookupAssoc base k) := by
  induction extra with
  | nil =>
      intro base k _
      simp [spreadInto, lookupAssoc]
  | cons hd tl ih =>
      intro base k hnd
      obtain ⟨k0, v0⟩ := hd
      simp only [List.map_cons, List.nodup_cons] at hnd
      have hstep : spreadInto base ((k0, v0) :: tl) = spreadInto (updAssoc base k0 v0) tl := rfl
      rw [hstep, ih (updAssoc base k0 v0) k hnd.2]
      by_cases h : k0 = k
      · subst h
        have hnone : lookupAssoc tl k0 = none := lookupAssoc_not_mem tl k0 hnd.1
        simp [lookupAssoc, hnone, lookupAssoc_updAssoc]
      · cases hlt : lookupAssoc tl k <;>
          simp [lookupAssoc, h, hlt, lookupAssoc_updAssoc]

theorem outApp_empty_left (b : Part001.HandlerOutput) :
    Part001.outApp ⟨[], [], false⟩ b = b := by
  cases b
  simp [Part001.outApp]

theorem outApp_assoc (a b c : Part001.HandlerOutput) :
    Part001.outApp (Part001.outApp a b) c = Part001.outApp a (Part001.outApp b c) := by
  cases a; cases b; cases c
  simp [Part001.outApp, List.append_assoc, Bool.or_assoc]

theorem foldl_outApp (voice fmt : String) (frames : List (Option JVal)) :
    ∀ acc : Part001.HandlerOutput,
      frames.foldl (fun a f => Part001.outApp a (Part001.handleClientText voice fmt f)) acc
        = Part001.outApp acc (Part001.runTextFrames voice fmt frames) := by
  induction frames with
  | nil =>
      intro acc
      cases acc
      simp [Part001.runTextFrames, Part001.outApp]
  | cons f rest ih =>
      intro acc
      have h1 : Part001.runTextFrames voice fmt (f :: rest)
          = Part001.outApp (Part001.handleClientText voice fmt f)
              (Part001.runTextFrames voice fmt rest) := by
        have h2 := ih (Part001.outApp ⟨[], [], false⟩ (Part001.handleClientText voice fmt f))
        simpa [Part001.runTextFrames, outApp_empty_left] using h2
      simp only [List.foldl_cons]
      rw [ih, h1, outApp_assoc]

theorem runTextFrames_cons (voice fmt : String) (f : Option JVal)
    (rest : List (Option JVal)) :
    Part001.runTextFrames voice fmt (f :: rest)
      = Part001.outApp (Part001.handleClientText voice fmt f)
          (Part001.runTextFrames voice fmt rest) := by
  have h2 := foldl_outApp voice fmt rest
      (Part001.outApp ⟨[], [], false⟩ (Part001.handleClientText voice fmt f))
  simpa [Part001.runTextFrames, outApp_empty_left] using h2

/-! Claim theorems. -/

/-- C1: finalize is a one-shot atomic claim on the transcript buffer.
With an all-whitespace buffer it appends no turn, performs no hand-off
and leaves the buffer as it was; with a non-empty buffer it clears the
buffer, appends exactly one user turn holding the buffered text and
hands off to generation exactly once.  A second finalize directly after
a finalize adds no hand-off; after an explicit-final fragment the armed
timer is gone, so a late timer expiry changes nothing; in any reachable
state a timer expiry followed by an empty final-flag event adds no
second hand-off; and every run appends exactly one user turn per
hand-off. -/
theorem finalize_one_shot_per_utterance (s : ServerTs.TAState) (t : String)
    (evs : List ServerTs.TAEvent) :
    ((ServerTs.finalizeNow s).userTurns, (ServerTs.finalizeNow s).handoffs,
        (ServerTs.finalizeNow s).lastTranscript)
      = (if jsTrim s.lastTranscript = "" then (s.userTurns, s.handoffs, s.lastTranscript)
         else (s.userTurns ++ [jsTrim s.lastTranscript], s.handoffs + 1, "")) ∧
    (ServerTs.finalizeNow (ServerTs.finalizeNow s)).handoffs
      = (ServerTs.finalizeNow s).handoffs ∧
    ServerTs.taStep (ServerTs.taStep s (ServerTs.TAEvent.fragment t true))
        ServerTs.TAEvent.timerFire
      = ServerTs.taStep s (ServerTs.TAEvent.fragment t true) ∧
    (ServerTs.taStep (ServerTs.taStep (ServerTs.taRun ServerTs.taInit evs)
        ServerTs.TAEvent.timerFire) (ServerTs.TAEvent.fragment "" true)).handoffs
      = (ServerTs.taStep (ServerTs.taRun ServerTs.taInit evs)
          ServerTs.TAEvent.timerFire).handoffs ∧
    (ServerTs.taRun ServerTs.taInit evs).userTurns.length
      = (ServerTs.taRun ServerTs.taInit evs).handoffs := by
  refine ⟨?_, ?_, ?_, ?_, ?_⟩
  · by_cases h : jsTrim s.lastTranscript = "" <;> simp [ServerTs.finalizeNow, h]
  · exact finalizeNow_handoffs_eq _ (finalizeNow_trim s)
  · exact taStep_timerFire_not_armed _ (taStep_fragment_true_armed s t)
  · have hinv := taRun_inv evs ServerTs.taInit (by intro h; exact absurd jsTrim_empty h)
    set s0 := ServerTs.taRun ServerTs.taInit evs with hs0
    have hx : jsTrim (ServerTs.taStep s0 ServerTs.TAEvent.timerFire).lastTranscript = "" := by
      by_cases harm : s0.timerArmed = true
      · rw [taStep_timerFire_armed s0 harm]; exact finalizeNow_trim s0
      · rw [taStep_timerFire_not_armed s0 (by simpa using harm)]
        by_contra hne
        exact harm (hinv hne)
    have hstep : ServerTs.taStep (ServerTs.taStep s0 ServerTs.TAEvent.timerFire)
        (ServerTs.TAEvent.fragment "" true)
        = ServerTs.finalizeNow (ServerTs.taStep s0 ServerTs.TAEvent.timerFire) := by
      simp [ServerTs.taStep, jsTrim_empty]
    rw [hstep]
    exact finalizeNow_handoffs_eq _ hx
  · exact taRun_len evs ServerTs.taInit rfl

/-- C10: in both gmailSearch variants of google.ts the effective
maxResults value handed to the Gmail API lies in the interval from 1 to
10, a missing value defaults to 5, while the tool schema advertised to
the model in server.ts permits values up to 20 — so the requested value
20 executes as 10, different from what was requested. -/
theorem gmailSearch_maxResults_clamped (m : Option Int) :
    1 ≤ GoogleTs.effectiveMaxResults m ∧ GoogleTs.effectiveMaxResults m ≤ 10 ∧
    1 ≤ GoogleTs.effectiveMaxSecond m ∧ GoogleTs.effectiveMaxSecond m ≤ 10 ∧
    GoogleTs.effectiveMaxResults none = 5 ∧ GoogleTs.effectiveMaxSecond none = 5 ∧
    GoogleTs.advertisedSchemaMaximum = 20 ∧
    GoogleTs.effectiveMaxResults (some GoogleTs.advertisedSchemaMaximum) = 10 ∧
    GoogleTs.effectiveMaxSecond (some GoogleTs.advertisedSchemaMaximum) = 10 ∧
    GoogleTs.effectiveMaxResults (some GoogleTs.advertisedSchemaMaximum)
      ≠ GoogleTs.advertisedSchemaMaximum := by
  refine ⟨?_, ?_, ?_, ?_, by decide, by decide, rfl, by decide, by decide, by decide⟩
  · exact le_min (le_max_right _ _) (by norm_num)
  · exact min_le_right _ _
  · exact le_max_left _ _
  · exact max_le (by norm_num) (min_le_right _ _)

/-- C2 (amended): in the zod-validating relay of part_001, a text frame
that is not valid JSON yields exactly one Invalid JSON error event, a
parsed frame that fails ClientMessageSchema yields exactly one Invalid
message shape error event, in both cases nothing is forwarded upstream
and the connection stays open, and the frames after an invalid one are
processed exactly as they would be on their own.  In the Deepgram
bridge of server.ts, by contrast, an unparsable text frame is silently
ignored: nothing is sent to the client or upstream and the connection
stays open, but no error event is emitted. -/
theorem invalid_client_frame_handling (voice fmt : String) (v : JVal)
    (rest : List (Option JVal))
    (hv : Part001.clientMessageSafeParse v = none) :
    Part001.handleClientText voice fmt none
      = ⟨[Part001.ClientEvt.errorEvent "Invalid JSON from client"], [], false⟩ ∧
    Part001.handleClientText voice fmt (some v)
      = ⟨[Part001.ClientEvt.errorEvent "Invalid message shape"], [], false⟩ ∧
    ServerTs.handleControlText none = [] ∧
    Part001.runTextFrames voice fmt (none :: rest)
      = Part001.outApp
          ⟨[Part001.ClientEvt.errorEvent "Invalid JSON from client"], [], false⟩
          (Part001.runTextFrames voice fmt rest) := by
  refine ⟨rfl, ?_, rfl, ?_⟩
  · simp [Part001.handleClientText, hv]
  · rw [runTextFrames_cons]
    rfl

/-- C2 witness: a concrete malformed frame (the JSON number 3, which no
control-message shape accepts) produces exactly the one shape-error
event. -/
theorem invalid_client_frame_handling_witness :
    Part001.handleClientText "alloy" "opus" (some (JVal.num 3))
      = ⟨[Part001.ClientEvt.errorEvent "Invalid message shape"], [], false⟩ :=
  (invalid_client_frame_handling "alloy" "opus" (JVal.num 3) [] rfl).2.1

/-- C2 counterexample: the cited ws.on message handler of server.ts, on
a client text frame that fails JSON.parse, emits nothing at all — in
particular no structured error event — refuting the claim that every
invalid inbound text frame produces an error event to the client. -/
theorem invalid_json_silently_ignored : ServerTs.handleControlText none = [] := rfl

/-- C8: for every client response.create control message the relay
sends upstream exactly the caller response spread over the deterministic
defaults; per key, a key present in the caller object takes the caller
value and a key absent from it keeps the default value; an absent
response object keeps all defaults. -/
theorem response_create_merges_defaults (voice fmt : String)
    (r : List (String × JVal)) (k : String)
    (hnd : (r.map Prod.fst).Nodup) :
    Part001.handleClientText voice fmt
        (some (JVal.obj [("type", JVal.str "response.create"), ("response", JVal.obj r)]))
      = ⟨[], [Part001.UpMsg.responseCreateResp (Part001.mergedResponse voice fmt (some r))],
          false⟩ ∧
    lookupAssoc (Part001.mergedResponse voice fmt (some r)) k =
      (match lookupAssoc r k with
       | some v => some v
       | none => lookupAssoc (Part001.responseDefaults voice fmt) k) ∧
    Part001.mergedResponse voice fmt none = Part001.responseDefaults voice fmt := by
  refine ⟨?_, ?_, rfl⟩
  · simp [Part001.handleClientText, Part001.clientMessageSafeParse,
      Part001.optRecordField, lookupAssoc]
  · exact lookupAssoc_spreadInto r (Part001.responseDefaults voice fmt) k hnd

/-- C8 witness: with the caller supplying only a voice key, the merged
payload takes the caller voice and keeps the default modalities. -/
theorem response_create_merges_defaults_witness :
    lookupAssoc (Part001.mergedResponse "alloy" "opus" (some [("voice", JVal.str "verse")]))
        "voice" = some (JVal.str "verse") ∧
    lookupAssoc (Part001.mergedResponse "alloy" "opus" (some [("voice", JVal.str "verse")]))
        "modalities" = some (JVal.arr [JVal.str "audio", JVal.str "text"]) := by
  have h1 := response_create_merges_defaults "alloy" "opus"
      [("voice", JVal.str "verse")] "voice" (by decide)
  have h2 := response_create_merges_defaults "alloy" "opus"
      [("voice", JVal.str "verse")] "modalities" (by decide)
  refine ⟨?_, ?_⟩
  · rw [h1.2.1]; rfl
  · rw [h2.2.1]; rfl

theorem onClientMessage_not_ready (frames : List Part000.ClientFrame) :
    ∀ s : Part000.NetState, s.openaiReady = false →
      (frames.foldl Part000.onClientMessage s).openaiReady = false ∧
      (frames.foldl Part000.onClientMessage s).sentUpstream = s.sentUpstream ∧
      (frames.foldl Part000.onClientMessage s).clientQueue
        = s.clientQueue ++ frames.filterMap Part000.frameToUpstream := by
  induction frames with
  | nil =>
      intro s h
      exact ⟨h, rfl, by simp⟩
  | cons f rest ih =>
      intro s h
      cases f with
      | binary b =>
          simp only [List.foldl_cons]
          have hs : Part000.onClientMessage s (Part000.ClientFrame.binary b)
              = { s with clientQueue := s.clientQueue ++ [Part000.UpItem.audioBin b] } := by
            simp [Part000.onClientMessage, h]
          rw [hs]
          obtain ⟨h1, h2, h3⟩ :=
            ih { s with clientQueue := s.clientQueue ++ [Part000.UpItem.audioBin b] }
              (by simpa using h)
          refine ⟨h1, h2, ?_⟩
          rw [h3]
          simp [Part000.frameToUpstream, List.filterMap_cons]
      | text parsed =>
          cases parsed with
          | none =>
              simp only [List.foldl_cons]
              have hs : Part000.onClientMessage s (Part000.ClientFrame.text none) = s := rfl
              rw [hs]
              obtain ⟨h1, h2, h3⟩ := ih s h
              refine ⟨h1, h2, ?_⟩
              rw [h3]
              simp [Part000.frameToUpstream, List.filterMap_cons]
          | some m =>
              simp only [List.foldl_cons]
              have hs : Part000.onClientMessage s (Part000.ClientFrame.text (some m))
                  = { s with clientQueue := s.clientQueue ++
                      [Part000.UpItem.json (if msgType m = some "interrupt"
                        then Part000.responseCancelMsg else m)] } := by
                by_cases hm : msgType m = some "interrupt" <;>
                  simp [Part000.onClientMessage, Part000.sendToOpenAI, h, hm]
              rw [hs]
              obtain ⟨h1, h2, h3⟩ :=
                ih { s with clientQueue := s.clientQueue ++
                      [Part000.UpItem.json (if msgType m = some "interrupt"
                        then Part000.responseCancelMsg else m)] }
                  (by simpa using h)
              refine ⟨h1, h2, ?_⟩
              rw [h3]
              simp [Part000.frameToUpstream, List.filterMap_cons]

/-- C3 (amended): in part_000 every pre-open client frame that the
relay accepts (binary, or text that parses as JSON) is queued FIFO
rather than dropped, and when the upstream opens the initial session
configuration is sent first and then the queued items are delivered in
exactly the original client arrival order with zero drops (a text
frame failing JSON.parse is discarded at parse time, as in the error
handling of C2).  In part_002 there is no queue: a client message
arriving before the upstream opens is dropped with a console warning
and never delivered. -/
theorem preopen_queue_fifo (frames : List Part000.ClientFrame) (f2 : String) :
    (Part000.onOpen (frames.foldl Part000.onClientMessage Part000.netInit)).sentUpstream
      = Part000.UpItem.json Part000.sessionConfigMsg
          :: frames.filterMap Part000.frameToUpstream ∧
    (Part000.onOpen (frames.foldl Part000.onClientMessage Part000.netInit)).clientQueue
      = [] ∧
    (Part002.p2OnOpen (Part002.p2OnClientMessage Part002.p2NetInit f2)).sentUpstream
      = [Part002.p2SessionConfigRaw] := by
  obtain ⟨h1, h2, h3⟩ := onClientMessage_not_ready frames Part000.netInit rfl
  refine ⟨?_, ?_, rfl⟩
  · simp only [Part000.netInit] at h2 h3
    simp [Part000.onOpen, Part000.sendToOpenAI, Part000.netInit, h2, h3]
  · simp [Part000.onOpen, Part000.sendToOpenAI]

/-- C3 counterexample: in part_002 a binary audio frame arriving before
the upstream socket is open is dropped; after the upstream opens, only
the session configuration has been delivered and the pre-open frame is
gone — refuting the claim that every pre-open client message is queued
and later delivered. -/
theorem preopen_message_dropped :
    (Part002.p2OnOpen (Part002.p2OnClientMessage Part002.p2NetInit
        "audio-chunk-0")).sentUpstream = [Part002.p2SessionConfigRaw] := rfl

/-- C4 (amended): part_002 forwards every upstream frame verbatim to
the client, including the intercepted tool-call events; part_000
forwards every upstream event that is not one of its three intercepted
tool-call lifecycle kinds, but consumes those three kinds without
forwarding them to the client. -/
theorem upstream_events_forwarding (parse : String → Option JVal)
    (gs2 : String → Int → Except String JVal)
    (pending2 : List (String × Part002.PendingP2)) (raw : String)
    (gs : String → Option JVal → Except String JVal)
    (gr : String → Except String JVal)
    (pending : List (String × Part000.P0Pending)) (evt : JVal) :
    (Part002.p2OnUpstreamMessage parse gs2 pending2 raw).toClient = [raw] ∧
    (Part000.p0IsIntercepted evt = false →
      (Part000.p0Handle parse gs gr pending evt).toClient = [evt]) ∧
    (Part000.p0IsIntercepted evt = true →
      (Part000.p0Handle parse gs gr pending evt).toClient = []) := by
  refine ⟨?_, ?_, ?_⟩
  · cases hp : parse raw <;> simp [Part002.p2OnUpstreamMessage, hp]
  · intro h
    simp only [Part000.p0IsIntercepted, Bool.or_eq_false_iff,
      decide_eq_false_iff_not] at h
    obtain ⟨⟨h1, h2⟩, h3⟩ := h
    simp [Part000.p0Handle, h1, h2, h3]
  · intro h
    simp only [Part000.p0IsIntercepted, Bool.or_eq_true, decide_eq_true_eq] at h
    rcases h with (h | h) | h <;> simp [Part000.p0Handle, h]

/-- C4 witness: a concrete non-intercepted event (an audio delta) is
forwarded verbatim by part_000. -/
theorem upstream_events_forwarding_witness :
    (Part000.p0Handle (fun _ => none) (fun _ _ => Except.ok JVal.null)
        (fun _ => Except.ok JVal.null) []
        (JVal.obj [("type", JVal.str "response.audio.delta")])).toClient
      = [JVal.obj [("type", JVal.str "response.audio.delta")]] :=
  (upstream_events_forwarding (fun _ => none) (fun _ _ => Except.ok JVal.null) [] "r"
      (fun _ _ => Except.ok JVal.null) (fun _ => Except.ok JVal.null) []
      (JVal.obj [("type", JVal.str "response.audio.delta")])).2.1 rfl

/-- C4 counterexample: part_000, on the announcement event of a
function call, forwards nothing to the client — the intercepted event
is withheld, refuting the claim that no upstream event is withheld from
the client. -/
theorem intercepted_event_withheld :
    (Part000.p0Handle (fun _ => none) (fun _ _ => Except.ok JVal.null)
        (fun _ => Except.ok JVal.null) []
        (JVal.obj [("type", JVal.str "response.function_call.created"),
                   ("call_id", JVal.str "c1"),
                   ("name", JVal.str "gmail_search")])).toClient = [] := rfl

theorem p1_run_closed (evs : List Part001.LifecycleEvt) :
    ∀ s : Part001.P1Session, s.closed = true →
      (evs.foldl Part001.onLifecycle s).closed = true ∧
      Part001.countCloseUpstream (evs.foldl Part001.onLifecycle s).acts
        = Part001.countCloseUpstream s.acts ∧
      Part001.countCloseClient (evs.foldl Part001.onLifecycle s).acts
        = Part001.countCloseClient s.acts ∧
      Part001.countClearPing (evs.foldl Part001.onLifecycle s).acts
        = Part001.countClearPing s.acts + Part001.countClientClose evs := by
  induction evs with
  | nil =>
      intro s h
      exact ⟨h, rfl, rfl, by simp [Part001.countClientClose]⟩
  | cons e rest ih =>
      intro s h
      cases e with
      | clientClose =>
          simp only [List.foldl_cons]
          have hs : Part001.onLifecycle s Part001.LifecycleEvt.clientClose
              = { s with acts := s.acts ++ [Part001.TeardownAct.clearPing] } := by
            simp [Part001.onLifecycle, Part001.closeBoth, h]
          rw [hs]
          obtain ⟨h1, h2, h3, h4⟩ :=
            ih { s with acts := s.acts ++ [Part001.TeardownAct.clearPing] }
              (by simpa using h)
          refine ⟨h1, ?_, ?_, ?_⟩
          · rw [h2]; simp [Part001.countCloseUpstream, List.countP_append]
          · rw [h3]; simp [Part001.countCloseClient, List.countP_append]
          · rw [h4]
            simp [Part001.countClearPing, Part001.countClientClose,
              List.countP_append, List.countP_cons]
            omega
      | clientError =>
          simp only [List.foldl_cons]
          have hs : Part001.onLifecycle s Part001.LifecycleEvt.clientError = s := by
            simp [Part001.onLifecycle, Part001.closeBoth, h]
          rw [hs]
          obtain ⟨h1, h2, h3, h4⟩ := ih s h
          refine ⟨h1, h2, h3, ?_⟩
          rw [h4]
          simp [Part001.countClientClose, List.countP_cons]
      | upstreamClose =>
          simp only [List.foldl_cons]
          have hs : Part001.onLifecycle s Part001.LifecycleEvt.upstreamClose = s := by
            simp [Part001.onLifecycle, Part001.closeBoth, h]
          rw [hs]
          obtain ⟨h1, h2, h3, h4⟩ := ih s h
          refine ⟨h1, h2, h3, ?_⟩
          rw [h4]
          simp [Part001.countClientClose, List.countP_cons]
      | upstreamError =>
          simp only [List.foldl_cons]
          have hs : Part001.onLifecycle s Part001.LifecycleEvt.upstreamError
              = { s with acts := s.acts ++ [Part001.TeardownAct.errorToClient] } := by
            simp [Part001.onLifecycle, Part001.closeBoth, h]
          rw [hs]
          obtain ⟨h1, h2, h3, h4⟩ :=
            ih { s with acts := s.acts ++ [Part001.TeardownAct.errorToClient] }
              (by simpa using h)
          refine ⟨h1, ?_, ?_, ?_⟩
          · rw [h2]; simp [Part001.countCloseUpstream, List.countP_append]
          · rw [h3]; simp [Part001.countCloseClient, List.countP_append]
          · rw [h4]
            simp [Part001.countClearPing, Part001.countClientClose,
              List.countP_append, List.countP_cons]

/-- C9: teardown is idempotent.  Over any sequence of client and
upstream close and error events, the part_001 session closes the
upstream socket at most once and the client socket at most once (zero
times only for the empty sequence), releases the ping interval exactly
once per client close event (the ws library fires close at most once
per socket), a second closeBoth on an already-closed session is a
no-op, and the server.ts close handler is idempotent and leaves both
timers released and the session marked closed. -/
theorem teardown_runs_at_most_once (evs : List Part001.LifecycleEvt)
    (s : Part001.P1Session) (c c2 : Nat) (rs rs2 : String)
    (st : ServerTs.ConnState) :
    Part001.countCloseUpstream (Part001.runLifecycle evs).acts
      = (if evs = [] then 0 else 1) ∧
    Part001.countCloseClient (Part001.runLifecycle evs).acts
      = (if evs = [] then 0 else 1) ∧
    Part001.countClearPing (Part001.runLifecycle evs).acts
      = Part001.countClientClose evs ∧
    Part001.closeBoth (Part001.closeBoth s c rs) c2 rs2 = Part001.closeBoth s c rs ∧
    ServerTs.wsOnClose (ServerTs.wsOnClose st) = ServerTs.wsOnClose st ∧
    (ServerTs.wsOnClose st).closed = true ∧
    (ServerTs.wsOnClose st).finalizeTimerArmed = false ∧
    (ServerTs.wsOnClose st).pingTimerArmed = false := by
  have hcb : ∀ (x : Part001.P1Session) (cc : Nat) (rr : String),
      (Part001.closeBoth x cc rr).closed = true := by
    intro x cc rr
    by_cases hx : x.closed = true <;> simp [Part001.closeBoth, hx]
  refine ⟨?_, ?_, ?_, ?_, rfl, rfl, rfl, rfl⟩
  · cases evs with
    | nil => simp [Part001.runLifecycle, Part001.countCloseUpstream]
    | cons e rest =>
        have hstep : Part001.runLifecycle (e :: rest)
            = rest.foldl Part001.onLifecycle (Part001.onLifecycle ⟨false, []⟩ e) := rfl
        rw [hstep]
        obtain ⟨h1, h2, h3, h4⟩ := p1_run_closed rest (Part001.onLifecycle ⟨false, []⟩ e)
            (by cases e <;> rfl)
        rw [h2]
        simp only [if_neg (by simp : ¬(e :: rest) = ([] : List Part001.LifecycleEvt))]
        cases e <;> rfl
  · cases evs with
    | nil => simp [Part001.runLifecycle, Part001.countCloseClient]
    | cons e rest =>
        have hstep : Part001.runLifecycle (e :: rest)
            = rest.foldl Part001.onLifecycle (Part001.onLifecycle ⟨false, []⟩ e) := rfl
        rw [hstep]
        obtain ⟨h1, h2, h3, h4⟩ := p1_run_closed rest (Part001.onLifecycle ⟨false, []⟩ e)
            (by cases e <;> rfl)
        rw [h3]
        simp only [if_neg (by simp : ¬(e :: rest) = ([] : List Part001.LifecycleEvt))]
        cases e <;> rfl
  · cases evs with
    | nil => simp [Part001.runLifecycle, Part001.countClearPing, Part001.countClientClose]
    | cons e rest =>
        have hstep : Part001.runLifecycle (e :: rest)
            = rest.foldl Part001.onLifecycle (Part001.onLifecycle ⟨false, []⟩ e) := rfl
        rw [hstep]
        obtain ⟨h1, h2, h3, h4⟩ := p1_run_closed rest (Part001.onLifecycle ⟨false, []⟩ e)
            (by cases e <;> rfl)
        rw [h4]
        cases e <;>
          (simp [Part001.onLifecycle, Part001.closeBoth, Part001.countClearPing,
            Part001.countClientClose, List.countP_cons, List.countP_append]
           try omega)
  · have h1 := hcb s c rs
    set x := Part001.closeBoth s c rs with hx
    simp [Part001.closeBoth, h1]

/-- C5 (amended): an unrecognised tool name never invokes a tool
implementation and never raises a connection-level error, and
generation resumes afterwards — but the synthesised result differs by
variant.  The Mistral loop of server.ts produces the object with ok
false and the message Unknown tool name, independently of the installed
tool implementations; the tools.ts dispatch used by part_002 instead
throws Unknown tool: name, which the caller catches and sends back as
the object with error true and that message as the call output,
followed by exactly one resume request.  The server.ts loop appends one
tool turn per call and issues the second (resume) pass whenever the
first pass returned calls. -/
theorem unknown_tool_synthesized_result
    (gs gs2 gs3 : String → Int → Except String JVal)
    (gr gr2 : String → Except String JVal)
    (gsend gsend2 : String → String → String → Except String JVal)
    (name : Option String) (nm : String) (args : JVal) (cid : String)
    (parse : String → Option JVal) (calls : List ServerTs.MistralToolCall)
    (c : ServerTs.MistralToolCall)
    (hname : ServerTs.isKnownToolName name = false)
    (hnm : nm ≠ "gmail_search") :
    ServerTs.dispatchTool gs gr gsend name args
      = JVal.obj [("ok", JVal.bool false),
                  ("error", JVal.str ("Unknown tool " ++ jsTemplateName name))] ∧
    ServerTs.dispatchTool gs gr gsend name args
      = ServerTs.dispatchTool gs3 gr2 gsend2 name args ∧
    ToolsTs.runToolByName gs2 nm args = Except.error ("Unknown tool: " ++ nm) ∧
    Part002.completionSends gs2 cid nm args
      = ToolsTs.sendToolResultBackToModel cid
          (JVal.obj [("error", JVal.bool true),
                     ("message", JVal.str ("Unknown tool: " ++ nm))]) ∧
    (ServerTs.runToolLoop parse gs gr gsend calls).length = calls.length ∧
    ServerTs.secondPassIssued (c :: calls) = true := by
  simp only [ServerTs.isKnownToolName, Bool.or_eq_false_iff,
    decide_eq_false_iff_not] at hname
  obtain ⟨⟨h1, h2⟩, h3⟩ := hname
  have hrun : ToolsTs.runToolByName gs2 nm args
      = Except.error ("Unknown tool: " ++ nm) := by
    simp [ToolsTs.runToolByName, hnm]
  refine ⟨?_, ?_, hrun, ?_, ?_, ?_⟩
  · simp [ServerTs.dispatchTool, h1, h2, h3]
  · simp [ServerTs.dispatchTool, h1, h2, h3]
  · simp [Part002.completionSends, hrun]
  · simp [ServerTs.runToolLoop]
  · simp [ServerTs.secondPassIssued]

/-- C5 witness: the concrete unrecognised name delete_everything. -/
theorem unknown_tool_synthesized_result_witness :
    ServerTs.dispatchTool (fun _ _ => Except.ok JVal.null) (fun _ => Except.ok JVal.null)
        (fun _ _ _ => Except.ok JVal.null) (some "delete_everything") (JVal.obj [])
      = JVal.obj [("ok", JVal.bool false),
                  ("error", JVal.str "Unknown tool delete_everything")] ∧
    Part002.completionSends (fun _ _ => Except.ok JVal.null) "c1" "delete_everything"
        (JVal.obj [])
      = ToolsTs.sendToolResultBackToModel "c1"
          (JVal.obj [("error", JVal.bool true),
                     ("message", JVal.str "Unknown tool: delete_everything")]) := by
  have h := unknown_tool_synthesized_result
      (fun _ _ => Except.ok JVal.null) (fun _ _ => Except.ok JVal.null)
      (fun _ _ => Except.ok JVal.null) (fun _ => Except.ok JVal.null)
      (fun _ => Except.ok JVal.null) (fun _ _ _ => Except.ok JVal.null)
      (fun _ _ _ => Except.ok JVal.null) (some "delete_everything") "delete_everything"
      (JVal.obj []) "c1" (fun _ => none) [] ⟨none, none⟩ rfl (by decide)
  exact ⟨h.1, h.2.2.2.1⟩

/-- C5 counterexample: for the completed call of the unrecognised tool
delete_everything handled through tools.ts and part_002, the synthesised
output object carries error true and a message — it has no ok field at
all, so it is not of the claimed shape with ok false and an error
message. -/
theorem unknown_tool_output_shape_differs :
    Part002.completionSends (fun _ _ => Except.ok JVal.null) "c1" "delete_everything"
        (JVal.obj [])
      = ToolsTs.sendToolResultBackToModel "c1"
          (JVal.obj [("error", JVal.bool true),
                     ("message", JVal.str "Unknown tool: delete_everything")]) ∧
    lookupAssoc [("error", JVal.bool true),
                 ("message", JVal.str "Unknown tool: delete_everything")] "ok" = none ∧
    lookupAssoc [("error", JVal.bool true),
                 ("message", JVal.str "Unknown tool: delete_everything")] "error"
      = some (JVal.bool true) := ⟨rfl, rfl, rfl⟩

/-- C6: when the accumulated argument text of a tool call fails to
parse as JSON at the arguments-done signal (including a premature done
with partial text), safeJson in server.ts and the done branch of
part_000 both substitute the empty object, and the tool call still
proceeds: the function_call_output for the call and the resume request
are still both sent, with the empty argument object. -/
theorem tool_args_parse_failure_recovers
    (parse : String → Option JVal) (s : String)
    (gs : String → Option JVal → Except String JVal)
    (gr : String → Except String JVal)
    (pending : List (String × Part000.P0Pending)) (evt : JVal)
    (hs : parse s = none)
    (hdone : msgType evt = some "response.function_call_arguments.done")
    (hargs : parse (((lookupAssoc pending (jsKeyOf (jGet evt "call_id"))).getD
        ⟨none, ""⟩).args) = none) :
    ServerTs.safeJson parse s = JVal.obj [] ∧
    Part000.p0ArgsOf parse (lookupAssoc pending (jsKeyOf (jGet evt "call_id")))
      = JVal.obj [] ∧
    Part000.p0Handle parse gs gr pending evt
      = ⟨pending, [],
         [Part000.p0ItemCreate (jsKeyOf (jGet evt "call_id"))
            (Part000.p0Dispatch gs gr
              ((lookupAssoc pending (jsKeyOf (jGet evt "call_id"))).bind
                (fun q => q.name))
              (JVal.obj [])),
          Part000.p0ResumeMsg]⟩ := by
  have h2 : Part000.p0ArgsOf parse (lookupAssoc pending (jsKeyOf (jGet evt "call_id")))
      = JVal.obj [] := by
    cases hent : lookupAssoc pending (jsKeyOf (jGet evt "call_id")) with
    | none => simp [Part000.p0ArgsOf]
    | some q =>
        rw [hent] at hargs
        simp only [Option.getD_some] at hargs
        by_cases hq : q.args = "" <;> simp [Part000.p0ArgsOf, hq, hargs]
  refine ⟨by simp [ServerTs.safeJson, hs], h2, ?_⟩
  simp [Part000.p0Handle, hdone, h2]

/-- C6 witness: a concrete done event whose buffered argument text does
not parse. -/
theorem tool_args_parse_failure_recovers_witness :
    ServerTs.safeJson (fun _ => none) "oops" = JVal.obj [] ∧
    Part000.p0ArgsOf (fun _ => none)
        (some (⟨some "gmail_search", "oops"⟩ : Part000.P0Pending)) = JVal.obj [] := by
  have h := tool_args_parse_failure_recovers (fun _ => none) "oops"
      (fun _ _ => Except.ok JVal.null) (fun _ => Except.ok JVal.null)
      [("c1", ⟨some "gmail_search", "oops"⟩)]
      (JVal.obj [("type", JVal.str "response.function_call_arguments.done"),
                 ("call_id", JVal.str "c1")]) rfl rfl rfl
  exact ⟨h.1, h.2.1⟩

/-- C7: on completion of a dispatched tool call, success or failure,
sendToolResultBackToModel injects exactly one function_call_output item
referencing the call and issues exactly one resume-generation request,
with the output injection first; the part_002 completion path always
replies through sendToolResultBackToModel; and the done branch of
part_000 likewise sends exactly the function_call_output for the call
followed by exactly one resume request. -/
theorem tool_result_then_resume
    (cid : String) (out : JVal)
    (gs2 : String → Int → Except String JVal) (nm : String) (args : JVal)
    (parse : String → Option JVal)
    (gs : String → Option JVal → Except String JVal)
    (gr : String → Except String JVal)
    (pending : List (String × Part000.P0Pending)) (evt : JVal)
    (hdone : msgType evt = some "response.function_call_arguments.done") :
    ToolsTs.sendToolResultBackToModel cid out
      = [ToolsTs.UpSend.conversationItemCreate cid out,
         ToolsTs.UpSend.responseCreateInstructions ToolsTs.resumeInstructions] ∧
    countItemCreates (ToolsTs.sendToolResultBackToModel cid out) = 1 ∧
    countResumeCreates (ToolsTs.sendToolResultBackToModel cid out) = 1 ∧
    (∃ res : JVal, Part002.completionSends gs2 cid nm args
        = ToolsTs.sendToolResultBackToModel cid res) ∧
    (Part000.p0Handle parse gs gr pending evt).toOpenAI
      = [Part000.p0ItemCreate (jsKeyOf (jGet evt "call_id"))
           (Part000.p0Dispatch gs gr
             ((lookupAssoc pending (jsKeyOf (jGet evt "call_id"))).bind
               (fun q => q.name))
             (Part000.p0ArgsOf parse
               (lookupAssoc pending (jsKeyOf (jGet evt "call_id"))))),
         Part000.p0ResumeMsg] := by
  refine ⟨rfl, rfl, rfl, ?_, ?_⟩
  · cases hrun : ToolsTs.runToolByName gs2 nm args with
    | ok res => exact ⟨res, by simp [Part002.completionSends, hrun]⟩
    | error e =>
        exact ⟨JVal.obj [("error", JVal.bool true), ("message", JVal.str e)],
          by simp [Part002.completionSends, hrun]⟩
  · simp [Part000.p0Handle, hdone]

/-- C7 witness: a concrete done event for call c1 with no recorded
pending entry still produces exactly the output injection followed by
the resume request. -/
theorem tool_result_then_resume_witness :
    (Part000.p0Handle (fun _ => none) (fun _ _ => Except.ok JVal.null)
        (fun _ => Except.ok JVal.null) []
        (JVal.obj [("type", JVal.str "response.function_call_arguments.done"),
                   ("call_id", JVal.str "c1")])).toOpenAI
      = [Part000.p0ItemCreate "c1"
           (Part000.p0Dispatch (fun _ _ => Except.ok JVal.null)
             (fun _ => Except.ok JVal.null) none (JVal.obj [])),
         Part000.p0ResumeMsg] := by
  have h := tool_result_then_resume "c1" JVal.null (fun _ _ => Except.ok JVal.null)
      "t" (JVal.obj []) (fun _ => none) (fun _ _ => Except.ok JVal.null)
      (fun _ => Except.ok JVal.null) []
      (JVal.obj [("type", JVal.str "response.function_call_arguments.done"),
                 ("call_id", JVal.str "c1")]) rfl
  exact h.2.2.2.2
